import Mathlib

set_option maxRecDepth 20000

namespace StrandsGraph

/-- JSON-like values, the shallow embedding of the Python values handled by
`json.loads` / `json.dumps` in `agent_graph.py` and `frontend_app.py`.
Numbers are modelled as integers (the payloads exercised here use none other). -/
inductive Json where
  | null : Json
  | bool (b : Bool) : Json
  | num (n : Int) : Json
  | str (s : String) : Json
  | arr (elems : List Json) : Json
  | obj (fields : List (String × Json)) : Json

/-- Dictionary lookup: Python's `d[k]` / `d.get(k)` on the association-list
model of a dict (first binding wins). -/
def lookup (fields : List (String × Json)) (key : String) : Option Json :=
  match fields with
  | [] => none
  | (k, v) :: rest => if k = key then some v else lookup rest key

/-- Skip JSON whitespace, as `json.loads` does between tokens. -/
def skipWs : List Char → List Char
  | [] => []
  | c :: cs => if c = ' ' || c = '\t' || c = '\n' || c = '\r' then skipWs cs else c :: cs

/-- JSON string escape characters (the common single-character escapes). -/
def escChar (c : Char) : Option Char :=
  if c = '"' then some '"'
  else if c = '\\' then some '\\'
  else if c = '/' then some '/'
  else if c = 'n' then some '\n'
  else if c = 't' then some '\t'
  else if c = 'r' then some '\r'
  else none

/-- Parse the body of a JSON string literal (after the opening quote). -/
def parseStringBody : List Char → Option (String × List Char)
  | [] => none
  | c :: cs =>
    if c = '"' then some ("", cs)
    else if c = '\\' then
      match cs with
      | [] => none
      | e :: cs2 =>
        match escChar e, parseStringBody cs2 with
        | some ec, some (s, rest) => some (String.singleton ec ++ s, rest)
        | _, _ => none
    else
      match parseStringBody cs with
      | some (s, rest) => some (String.singleton c ++ s, rest)
      | none => none

/-- Take a maximal run of decimal digits. -/
def takeDigits : List Char → List Char × List Char
  | [] => ([], [])
  | c :: cs =>
    if c.isDigit then
      let (ds, rest) := takeDigits cs
      (c :: ds, rest)
    else ([], c :: cs)

/-- Numeric value of a digit run. -/
def digitsVal (ds : List Char) : Nat :=
  ds.foldl (fun acc c => acc * 10 + (c.toNat - 48)) 0

/-- Finish parsing an integer literal; floats (a following `.`/`e`) are outside
the modelled fragment and are rejected. -/
def finishNum (neg : Bool) (ds rest : List Char) : Option (Json × List Char) :=
  if ds.isEmpty then none
  else
    let intOk : Bool :=
      match rest with
      | c :: _ => !(c = '.' || c = 'e' || c = 'E')
      | [] => true
    if intOk then
      let v : Int := Int.ofNat (digitsVal ds)
      some (.num (if neg then -v else v), rest)
    else none

/-- Parse a JSON number (integer fragment). -/
def parseNumber (cs : List Char) : Option (Json × List Char) :=
  match cs with
  | '-' :: rest =>
    let (ds, rest2) := takeDigits rest
    finishNum true ds rest2
  | _ =>
    let (ds, rest2) := takeDigits cs
    finishNum false ds rest2

mutual

/-- Fuel-indexed recursive-descent parser for one JSON value.
This is the shallow embedding of Python's `json.loads` tokenizer. -/
def parseValue : Nat → List Char → Option (Json × List Char)
  | 0, _ => none
  | Nat.succ fuel, cs =>
    match skipWs cs with
    | 'n' :: 'u' :: 'l' :: 'l' :: rest => some (.null, rest)
    | 't' :: 'r' :: 'u' :: 'e' :: rest => some (.bool true, rest)
    | 'f' :: 'a' :: 'l' :: 's' :: 'e' :: rest => some (.bool false, rest)
    | '"' :: rest =>
      match parseStringBody rest with
      | some (s, r) => some (.str s, r)
      | none => none
    | '[' :: rest =>
      (match skipWs rest with
       | ']' :: r => some (.arr [], r)
       | cs2 =>
         match parseElems fuel cs2 with
         | some (vs, r) => some (.arr vs, r)
         | none => none)
    | '\x7b' :: rest =>
      (match skipWs rest with
       | '\x7d' :: r => some (.obj [], r)
       | cs2 =>
         match parseMembers fuel cs2 with
         | some (kvs, r) => some (.obj kvs, r)
         | none => none)
    | c :: rest =>
      if c = '-' || c.isDigit then parseNumber (c :: rest) else none
    | [] => none

/-- Parse the elements of a non-empty JSON array, up to the closing bracket. -/
def parseElems : Nat → List Char → Option (List Json × List Char)
  | 0, _ => none
  | Nat.succ fuel, cs =>
    match parseValue fuel cs with
    | none => none
    | some (v, r) =>
      match skipWs r with
      | ',' :: r2 =>
        (match parseElems fuel r2 with
         | some (vs, r3) => some (v :: vs, r3)
         | none => none)
      | ']' :: r2 => some ([v], r2)
      | _ => none

/-- Parse the members of a non-empty JSON object, up to the closing brace. -/
def parseMembers : Nat → List Char → Option (List (String × Json) × List Char)
  | 0, _ => none
  | Nat.succ fuel, cs =>
    match skipWs cs with
    | '"' :: rest =>
      (match parseStringBody rest with
       | none => none
       | some (k, r) =>
         match skipWs r with
         | ':' :: r2 =>
           (match parseValue fuel r2 with
            | none => none
            | some (v, r3) =>
              match skipWs r3 with
              | ',' :: r4 =>
                (match parseMembers fuel r4 with
                 | some (kvs, r5) => some ((k, v) :: kvs, r5)
                 | none => none)
              | '\x7d' :: r4 => some ([(k, v)], r4)
              | _ => none)
         | _ => none)
    | _ => none

end

/-- Shallow embedding of Python's `json.loads`: parse the whole input as a
single JSON document, requiring only trailing whitespace after the value. -/
def json_loads (s : String) : Option Json :=
  match parseValue (2 * s.length + 2) s.data with
  | some (v, rest) => if skipWs rest = [] then some v else none
  | none => none

/-- Python `str` whitespace, as recognized by `str.strip()` (ASCII fragment). -/
def isPySpace (c : Char) : Bool :=
  c = ' ' || c = '\t' || c = '\n' || c = '\r' || c = '\x0b' || c = '\x0c'

/-- Python `s.strip()`: drop whitespace from both ends. -/
def pyStrip (s : String) : String :=
  String.mk (((s.data.dropWhile isPySpace).reverse.dropWhile isPySpace).reverse)

/-- Python `s.split("\n")` over the character list (keeps empty pieces). -/
def splitOnNL : List Char → List (List Char)
  | [] => [[]]
  | c :: cs =>
    if c = '\n' then [] :: splitOnNL cs
    else
      match splitOnNL cs with
      | l :: ls => (c :: l) :: ls
      | [] => [[c]]

/-- Python `s.split("\n")`. -/
def pySplitLines (s : String) : List String :=
  (splitOnNL s.data).map String.mk

/-- Python `s.startswith(pre)`. -/
def pyStartsWith (s pre : String) : Bool :=
  pre.data.isPrefixOf s.data

/-- Python `s[n:]`. -/
def pyDrop (s : String) (n : Nat) : String :=
  String.mk (s.data.drop n)

/-- The tagged result of `process_agent_response` in `frontend_app.py`:
one of `empty`, `error`, `structured`, `text`. -/
inductive DecodedResult where
  | empty (message : String) : DecodedResult
  | error (message : Json) : DecodedResult
  | structured (data : Json) : DecodedResult
  | text (message : String) : DecodedResult

/-- Strategy 1 of `process_agent_response` (frontend_app.py lines 78-108):
classification of the whole input once it parsed as a single JSON document.
A dict with an `error` key is an error; any other dict, and any list, is
structured (the dedicated `agents` branch returns the same result as the
generic dict branch); a bare string is text; anything else falls through. -/
def classifyWhole (data : Json) : Option DecodedResult :=
  match data with
  | .obj fields =>
    (match lookup fields "error" with
     | some v => some (.error v)
     | none => some (.structured (.obj fields)))
  | .arr elems => some (.structured (.arr elems))
  | .str s => some (.text s)
  | _ => none

/-- Strategy 2 per-line classification (frontend_app.py lines 125-148):
a dict with an `error` key is an error; a dict with an `agents` key is
structured; a bare string is text; every other parsed value produces no
return and the loop continues with the next line. -/
def classifyLine (data : Json) : Option DecodedResult :=
  match data with
  | .obj fields =>
    (match lookup fields "error" with
     | some v => some (.error v)
     | none =>
       if (lookup fields "agents").isSome then some (.structured (.obj fields))
       else none)
  | .str s => some (.text s)
  | _ => none

/-- Strip the optional `"data: "` prefix from a stream line
(frontend_app.py lines 120-122). -/
def stripDataPrefix (l : String) : String :=
  if pyStartsWith l "data: " then pyDrop l 6 else l

/-- The streaming loop of strategy 2 (frontend_app.py lines 115-151):
walk the lines, skip blank lines, strip the `data: ` prefix, try to parse
each line as JSON, and return the first line that both parses and is
classified; otherwise keep going. -/
def decodeStreamLines : List String → Option DecodedResult
  | [] => none
  | l :: ls =>
    let t := pyStrip l
    if t = "" then decodeStreamLines ls
    else
      match json_loads (stripDataPrefix t) with
      | none => decodeStreamLines ls
      | some d =>
        match classifyLine d with
        | some r => some r
        | none => decodeStreamLines ls

/-- Shallow embedding of `process_agent_response` (frontend_app.py lines
55-159) on the decoded response string: empty check, then strategy 1
(whole-input JSON), then strategy 2 (newline-delimited stream), then
strategy 3 (plain text with the entire raw input). -/
def process_agent_response (response_str : String) : DecodedResult :=
  if response_str = "" then .empty "レスポンスが空でした"
  else
    match
      (match json_loads response_str with
       | some d => classifyWhole d
       | none => none)
    with
    | some r => r
    | none =>
      match decodeStreamLines (pySplitLines response_str) with
      | some r => r
      | none => .text response_str

/-- Decoder for the stream fallback as the specification words it
(spec 4.6 steps 3-4): the classification of step 2 (`classifyWhole`) is
applied to the first line that parses successfully as JSON, and the walk
stops there. Used to compare the spec's words with the code. -/
def decodeStreamLinesClaim : List String → Option DecodedResult
  | [] => none
  | l :: ls =>
    let t := pyStrip l
    if t = "" then decodeStreamLinesClaim ls
    else
      match json_loads (stripDataPrefix t) with
      | none => decodeStreamLinesClaim ls
      | some d => classifyWhole d

/-- The whole decoder on a non-JSON input, as the specification words it:
stream decoding per `decodeStreamLinesClaim`, else text with the raw input. -/
def process_claim_stream (s : String) : DecodedResult :=
  match decodeStreamLinesClaim (pySplitLines s) with
  | some r => r
  | none => .text s

/-- One-line classification used to state the stream fallback as a
first-match search: blank lines, unparseable lines and lines parsing to a
value that strategy 2 does not classify all yield `none`. -/
def lineClassify (l : String) : Option DecodedResult :=
  let t := pyStrip l
  if t = "" then none
  else
    match json_loads (stripDataPrefix t) with
    | none => none
    | some d => classifyLine d

mutual

/-- Python `repr` of a JSON-like value (containers as in CPython's `repr`). -/
def pyRepr : Json → String
  | .null => "None"
  | .bool true => "True"
  | .bool false => "False"
  | .num n => toString n
  | .str s => "\x27" ++ s ++ "\x27"
  | .arr l => "[" ++ String.intercalate ", " (pyReprList l) ++ "]"
  | .obj kvs => "\x7b" ++ String.intercalate ", " (pyReprPairs kvs) ++ "\x7d"

/-- Repr of the elements of a list value. -/
def pyReprList : List Json → List String
  | [] => []
  | j :: js => pyRepr j :: pyReprList js

/-- Repr of the members of a dict value. -/
def pyReprPairs : List (String × Json) → List String
  | [] => []
  | (k, v) :: kvs => ("\x27" ++ k ++ "\x27: " ++ pyRepr v) :: pyReprPairs kvs

end

/-- Python `str(v)` on a JSON-like value: a string is itself, anything else
is its `repr`. -/
def pyStr : Json → String
  | .str s => s
  | v => pyRepr v

/-- The tail of `parse_prompt_from_payload` (agent_graph.py lines 90-93):
read the top-level `prompt` key, stringified with `str(...)`, defaulting to
the empty string. -/
def directPrompt (payload : List (String × Json)) : Json :=
  match lookup payload "prompt" with
  | some v => .str (pyStr v)
  | none => .str ""

/-- Shallow embedding of `parse_prompt_from_payload` (agent_graph.py lines
76-93). The payload is a Python dict modelled as an association list. The
Python function is annotated `-> str` but `input_data.get("prompt", "")`
can return any value, so the model returns a `Json` (plain strings wrapped
in `Json.str`). A string `input` is JSON-decoded; when the decoded value is
not a dict, the `.get` attribute access raises and the `except` branch
returns the whole string. When `input` is present but neither a dict nor a
string, control falls through to the top-level `prompt` key. -/
def parse_prompt_from_payload (payload : List (String × Json)) : Json :=
  if payload.isEmpty then .str ""
  else
    match lookup payload "input" with
    | some input_data =>
      (match input_data with
       | .obj fields => (lookup fields "prompt").getD (.str "")
       | .str s =>
         (match json_loads s with
          | some (.obj fields) => (lookup fields "prompt").getD (.str "")
          | some _ => .str s
          | none => .str s)
       | _ => directPrompt payload)
    | none => directPrompt payload

/-- The prompt resolution as the claim words it: `input` present and an
object → its `prompt` field; `input` a string → JSON-decode and read
`prompt`, whole string when that fails; the top-level `prompt` key is read
only when `input` is absent; otherwise the resolved prompt is empty. -/
def parse_prompt_claim (payload : List (String × Json)) : Json :=
  match lookup payload "input" with
  | some (.obj fields) => (lookup fields "prompt").getD (.str "")
  | some (.str s) =>
    (match json_loads s with
     | some (.obj fields) => (lookup fields "prompt").getD (.str "")
     | some _ => .str s
     | none => .str s)
  | some _ => .str ""
  | none => directPrompt payload

/-- The amended prompt resolution: as the claim, except that when `input`
is present but neither an object nor a string the top-level `prompt` key is
read, exactly as when `input` is absent. -/
def parse_prompt_amended (payload : List (String × Json)) : Json :=
  match lookup payload "input" with
  | some (.obj fields) => (lookup fields "prompt").getD (.str "")
  | some (.str s) =>
    (match json_loads s with
     | some (.obj fields) => (lookup fields "prompt").getD (.str "")
     | some _ => .str s
     | none => .str s)
  | some _ => directPrompt payload
  | none => directPrompt payload

/-- Python truthiness of a JSON-like value (`or \x7b\x7d` in line 44). -/
def pyFalsy : Json → Bool
  | .null => true
  | .bool b => !b
  | .num n => n == 0
  | .str s => s == ""
  | .arr l => l.isEmpty
  | .obj l => l.isEmpty

/-- Is the value a Python dict? (`isinstance(block, dict)`). -/
def isDict : Json → Bool
  | .obj _ => true
  | _ => false

/-- Python iteration over a value: a list yields its elements, a string its
one-character strings, a dict its keys; other values raise `TypeError`. -/
def pyIter : Json → Option (List Json)
  | .arr l => some l
  | .str s => some (s.data.map (fun c => .str (String.singleton c)))
  | .obj kvs => some (kvs.map (fun kv => .str kv.1))
  | _ => none

/-- The inner loop over a tool-result's content (agent_graph.py lines
57-62): only `text` and `json` keys of dict sub-blocks are collected; a
`toolResult` nested inside a sub-block is not looked at. -/
def collectInner : List Json → List Json × List Json
  | [] => ([], [])
  | b :: bs =>
    let rest := collectInner bs
    match b with
    | .obj fields =>
      ((match lookup fields "text" with | some v => [v] | none => []) ++ rest.1,
       (match lookup fields "json" with | some v => [v] | none => []) ++ rest.2)
    | _ => rest

/-- Python `block.get("toolResult", \x7b\x7d).get("content", [])` and the inner
loop (agent_graph.py lines 56-62): raises when the `toolResult` value is
not a dict, or its `content` value is not iterable. -/
def innerToolResult (fields : List (String × Json)) :
    Except Unit (List Json × List Json) :=
  match lookup fields "toolResult" with
  | none => pure ([], [])
  | some (.obj trFields) =>
    (match pyIter ((lookup trFields "content").getD (.arr [])) with
     | some inners => pure (collectInner inners)
     | none => Except.error ())
  | some _ => Except.error ()

/-- The main loop of `extract_message_content` (agent_graph.py lines
49-62): non-dict blocks are skipped; a dict block contributes its `text`
value, its `json` value, and the one-level flattening of its tool-result. -/
def processBlocks : List Json → Except Unit (List Json × List Json)
  | [] => pure ([], [])
  | b :: bs =>
    match b with
    | .obj fields => do
      let inner ← innerToolResult fields
      let rest ← processBlocks bs
      pure ((match lookup fields "text" with | some v => [v] | none => []) ++
              inner.1 ++ rest.1,
            (match lookup fields "json" with | some v => [v] | none => []) ++
              inner.2 ++ rest.2)
    | _ => processBlocks bs

/-- Python `"\n".join(texts)` raises `TypeError` unless every element is a str. -/
def allStrings : List Json → Except Unit (List String)
  | [] => pure []
  | .str s :: ts => (allStrings ts).map (fun ss => s :: ss)
  | _ :: _ => Except.error ()

/-- The `try` body of `extract_message_content` (agent_graph.py lines
43-64), with every Python raise modelled as `Except.error`. -/
def extractBody (agent_result : Option Json) : Except Unit (String × List Json) := do
  let message := match agent_result with
    | none => Json.obj []
    | some m => if pyFalsy m then Json.obj [] else m
  let fields ← match message with
    | Json.obj fields => pure fields
    | _ => Except.error ()
  let blocks ← match pyIter ((lookup fields "content").getD (.arr [])) with
    | some bs => pure bs
    | none => Except.error ()
  let collected ← processBlocks blocks
  let strs ← allStrings collected.1
  pure (pyStrip (String.intercalate "\n" strs), collected.2)

/-- Shallow embedding of `extract_message_content` (agent_graph.py lines
41-67): the argument is the `message` attribute of the AgentResult (`none`
when the attribute is absent); the `except` handler turns any raise into
`("", [])`. -/
def extract_message_content (agent_result : Option Json) : String × List Json :=
  match extractBody agent_result with
  | .ok r => r
  | .error _ => ("", [])

/-- The tool-result part of one block in the claimed flattening: the
continuation `rec` flattens the sub-blocks of the block's tool-result. -/
def stepInner (rec : List Json → List String × List Json)
    (fields : List (String × Json)) : List String × List Json :=
  match lookup fields "toolResult" with
  | some (.obj trFields) =>
    (match lookup trFields "content" with
     | some (.arr inners) => rec inners
     | _ => ([], []))
  | _ => ([], [])

/-- One level of the flattening as the claim words it: text and structured
entries are collected, and a block's tool-result sub-blocks are flattened
by the continuation `rec` into the same two buckets. -/
def claimFlattenStep (rec : List Json → List String × List Json) :
    List Json → List String × List Json
  | [] => ([], [])
  | b :: bs =>
    let rest := claimFlattenStep rec bs
    match b with
    | .obj fields =>
      let inner := stepInner rec fields
      ((match lookup fields "text" with | some (.str s) => [s] | _ => []) ++
         inner.1 ++ rest.1,
       (match lookup fields "json" with | some v => [v] | none => []) ++
         inner.2 ++ rest.2)
    | _ => rest

/-- The flattening as the claim words it, with `d` nested tool-result
expansions allowed. -/
def claimFlatten : Nat → List Json → List String × List Json
  | 0 => claimFlattenStep (fun _ => ([], []))
  | Nat.succ d => claimFlattenStep (claimFlatten d)

/-- The function `extract_message_content` as the claim words it: the newline-joined,
trimmed texts and the verbatim structured blocks, with tool-results
recursively flattened to depth 3. -/
def claimExtract (message : Json) : String × List Json :=
  match message with
  | .obj fields =>
    (match lookup fields "content" with
     | some (.arr blocks) =>
       let collected := claimFlatten 3 blocks
       (pyStrip (String.intercalate "\n" collected.1), collected.2)
     | _ => ("", []))
  | _ => ("", [])

/-- A message whose content nests a tool-result inside a tool-result, with
a text block at depth 3. -/
def nestedToolResultMsg : Json :=
  .obj [("content", .arr [
    .obj [("toolResult", .obj [("content", .arr [
      .obj [("toolResult", .obj [("content", .arr [
        .obj [("text", .str "deep")]])])]])])]])]

/-- Well-formedness of an inner tool-result sub-block: a `text` value, when
present, is a str (so that joining cannot raise). -/
def goodInner (b : Json) : Bool :=
  match b with
  | .obj fields =>
    (match lookup fields "text" with
     | none => true
     | some (.str _) => true
     | some _ => false)
  | _ => true

/-- Well-formedness of a top-level content block: its `text` value, when
present, is a str, and its `toolResult`, when present, is a dict whose
`content` is absent or a list of well-formed sub-blocks. -/
def goodBlock (b : Json) : Bool :=
  match b with
  | .obj fields =>
    (match lookup fields "text" with
     | none => true
     | some (.str _) => true
     | some _ => false)
    && (match lookup fields "toolResult" with
        | none => true
        | some (.obj trFields) =>
          (match lookup trFields "content" with
           | none => true
           | some (.arr inners) => inners.all goodInner
           | some _ => false)
        | some _ => false)
  | _ => true

/-- Well-formedness of a block list. -/
def wellFormedBlocks (blocks : List Json) : Bool :=
  blocks.all goodBlock

/-- The per-node text collection of the result loop in `invoke_agent_graph`
(agent_graph.py lines 482-490): for each agent result of the node, the
extracted text contributes the line `"[node_name] text"` to `all_texts`
when it is non-empty. -/
def node_texts (name : String) : List (Option Json) → List String
  | [] => []
  | ar :: ars =>
    let text := (extract_message_content ar).1
    (if text ≠ "" then ["[" ++ name ++ "] " ++ text] else []) ++ node_texts name ars

/-- The `all_texts` accumulation over `graph_result.results.items()`
(agent_graph.py lines 468-508), in result-map insertion order, which is
node completion order. Each node is modelled by its name and the list of
message values of its agent results. -/
def all_texts_loop : List (String × List (Option Json)) → List String
  | [] => []
  | (name, ars) :: rest => node_texts name ars ++ all_texts_loop rest

/-- The `full_text` field of the structured response (agent_graph.py line
511): `"\n\n".join(all_texts)` when any text was collected, otherwise the
fixed sentinel `"レスポンスが空でした"`. -/
def build_full_text (results : List (String × List (Option Json))) : String :=
  let all_texts := all_texts_loop results
  if all_texts.isEmpty then "レスポンスが空でした"
  else String.intercalate "\n\n" all_texts

/-- The labelled node texts as the claim words them: for every node in
completion order, the non-empty extracted texts of its agent results,
each labelled `"[node_name] text"`. -/
def labeledTexts (results : List (String × List (Option Json))) : List String :=
  results.bind (fun nr =>
    ((nr.2.map (fun ar => (extract_message_content ar).1)).filter
        (fun t => t ≠ "")).map
      (fun t => "[" ++ nr.1 ++ "] " ++ t))

/-- A tool of the MCP catalog: `_get_tool_name` reads its `tool_name`. -/
structure Tool where
  tool_name : String

/-- The function `_get_tool_name` (agent_graph.py lines 30-32) on the Tool model. -/
def _get_tool_name (t : Tool) : String :=
  t.tool_name

/-- Python `sub in s` on strings. -/
def strContainsAux : List Char → List Char → Bool
  | s, pat =>
    if pat.isPrefixOf s then true
    else
      match s with
      | [] => false
      | _ :: rest => strContainsAux rest pat

/-- Python `sub in s` on strings. -/
def strContains (s pat : String) : Bool :=
  strContainsAux s.data pat.data

/-- Python `s.lower()` (character-wise). -/
def pyLower (s : String) : String :=
  String.mk (s.data.map Char.toLower)

/-- Shallow embedding of `_filter_tools_by_keyword` (agent_graph.py lines
35-38): keep the tools whose lower-cased name contains the lower-cased
keyword. -/
def _filter_tools_by_keyword (tools : List Tool) (keyword : String) : List Tool :=
  let key := pyLower keyword
  tools.filter (fun t => strContains (pyLower (_get_tool_name t)) key)

/-- The tool selection of `SlackAgentFactory.build` (agent_graph.py lines
268-274): filter by "slack", and fall back to the full list when empty. -/
def slack_select_tools (tools : List Tool) : List Tool :=
  let slack_tools := _filter_tools_by_keyword tools "slack"
  if slack_tools.isEmpty then tools else slack_tools

/-- The tool selection of `TavilyAgentFactory.build` (agent_graph.py lines
311-321): filter by "tavily", retry with "extract" when empty, and fall
back to the full list when still empty. -/
def tavily_select_tools (tools : List Tool) : List Tool :=
  let t1 := _filter_tools_by_keyword tools "tavily"
  let t2 := if t1.isEmpty then _filter_tools_by_keyword tools "extract" else t1
  if t2.isEmpty then tools else t2

/-- One page returned by `client.list_tools_sync`: the listed tools and the
`pagination_token` attribute read with `getattr` (absent → `none`). Tokens
are modelled as page indices. -/
structure ToolPage where
  items : List Tool
  pagination_token : Option Nat

/-- The `while True` loop of `get_full_tools_list` (agent_graph.py lines
230-240), with an explicit call counter and fuel: the Python loop has no
bound, and `none` means the fuel ran out before a listing returned an
absent cursor. -/
def get_full_tools_list_loop (listToolsSync : Option Nat → ToolPage) :
    Nat → Option Nat → List Tool → Nat → Option (List Tool × Nat)
  | 0, _, _, _ => none
  | Nat.succ fuel, tok, acc, calls =>
    let tmp := listToolsSync tok
    match tmp.pagination_token with
    | none => some (acc ++ tmp.items, calls + 1)
    | some t =>
      get_full_tools_list_loop listToolsSync fuel (some t) (acc ++ tmp.items)
        (calls + 1)

/-- The function `get_full_tools_list` (agent_graph.py lines 217-240): start with no
token and an empty accumulator; returns the tools and the number of
listing calls made. -/
def get_full_tools_list (listToolsSync : Option Nat → ToolPage) (fuel : Nat) :
    Option (List Tool × Nat) :=
  get_full_tools_list_loop listToolsSync fuel none [] 0

/-- A paginated listing backend serving a fixed sequence of pages: page `i`
links to page `i + 1` until the last page, whose cursor is absent. The
first call (no token) reads page 0. -/
def pagesClient (pages : List (List Tool)) : Option Nat → ToolPage :=
  fun tok =>
    let i := tok.getD 0
    ⟨pages.getD i [], if i + 1 < pages.length then some (i + 1) else none⟩

/-- Modelled from the spec: per-node status of a graph run (spec 4.4); the
strands graph engine executing the nodes is not part of this repository. -/
inductive NodeStatus where
  | completed : NodeStatus
  | failed : NodeStatus

/-- Modelled from the spec: the accumulated state of a GraphRun — the
per-node results in completion order (spec 3, GraphRun). -/
structure GraphState where
  results : List (String × NodeStatus)

/-- The function `always_false_condition` (agent_graph.py lines 96-99): always `false`,
used as the termination device on the tavily→block edge. -/
def always_false_condition (_ : GraphState) : Bool :=
  false

/-- Modelled from the spec: a directed edge with an optional condition
predicate over the accumulated graph state (spec 3, Edge). -/
structure GEdge where
  src : String
  tgt : String
  condition : Option (GraphState → Bool)

/-- Modelled from the spec: a graph — nodes, edges in declaration order,
one designated entry node (spec 3, Graph). -/
structure Graph where
  nodes : List String
  edges : List GEdge
  entry : String

/-- Modelled from the spec (4.4 step 2): an edge fires when it has no
condition, or its condition evaluates true against the current state. -/
def edgeFires (e : GEdge) (st : GraphState) : Bool :=
  match e.condition with
  | none => true
  | some c => c st

/-- Modelled from the spec (4.4): sequential execution driven by edge
firing. The worklist starts with the entry node; executing a node records
its result; on success the node's outgoing edges are evaluated in
declaration order against the state including its own result, and the
fired edges schedule their targets; on failure no edge fires, so nodes
reachable only through the failed node are never executed. Fuel bounds the
walk (`none` = fuel exhausted). -/
def runLoop (edges : List GEdge) (execNode : String → Bool) :
    Nat → List String → GraphState → Option GraphState
  | 0, _, _ => none
  | Nat.succ _, [], st => some st
  | Nat.succ fuel, n :: rest, st =>
    let ok := execNode n
    let st2 : GraphState :=
      ⟨st.results ++ [(n, if ok then NodeStatus.completed else NodeStatus.failed)]⟩
    if ok then
      let fired := (edges.filter (fun e => e.src = n && edgeFires e st2)).map
        (fun e => e.tgt)
      runLoop edges execNode fuel (rest ++ fired) st2
    else
      runLoop edges execNode fuel rest st2

/-- Modelled from the spec (4.4 step 4, GraphRun): overall run status. -/
inductive RunStatus where
  | completed : RunStatus
  | failed : RunStatus

/-- Modelled from the spec (4.4): run the graph from its entry node; the
run is `completed` when no executed node failed, else `failed`. -/
def runGraph (g : Graph) (execNode : String → Bool) (fuel : Nat) :
    Option (GraphState × RunStatus) :=
  match runLoop g.edges execNode fuel [g.entry] ⟨[]⟩ with
  | none => none
  | some st =>
    some (st,
      if st.results.all (fun r =>
          match r.2 with
          | NodeStatus.completed => true
          | NodeStatus.failed => false)
      then RunStatus.completed else RunStatus.failed)

/-- The graph built by `invoke_agent_graph` (agent_graph.py lines 415-433):
nodes `slack_agent`, `tavily_agent`, `block_agent`; an unconditional edge
slack→tavily; a conditional edge tavily→block guarded by
`always_false_condition`; entry point `slack_agent`. -/
def agentGraph : Graph where
  nodes := ["slack_agent", "tavily_agent", "block_agent"]
  edges := [⟨"slack_agent", "tavily_agent", none⟩,
            ⟨"tavily_agent", "block_agent", some always_false_condition⟩]
  entry := "slack_agent"

theorem decodeStreamLines_eq_findSome (ls : List String) :
    decodeStreamLines ls = ls.findSome? lineClassify := by
  induction ls with
  | nil => rfl
  | cons l ls ih =>
    simp only [decodeStreamLines, lineClassify, List.findSome?_cons]
    by_cases h : pyStrip l = ""
    · simp [h, ih]
    · simp only [h, if_false]
      cases json_loads (stripDataPrefix (pyStrip l)) with
      | none => simpa using ih
      | some d =>
        cases hc : classifyLine d with
        | none => simpa [hc] using ih
        | some r => simp [hc]

/-- C9: for every non-empty input that parses as a single JSON document, the
decoder returns an error result (object with an `error` key), a structured
result (any other object, or an array), or a text result (bare string); and
the empty input yields the empty result. -/
theorem process_agent_response_single_document_spec :
    process_agent_response "" = .empty "レスポンスが空でした"
    ∧ (∀ s fields v, s ≠ "" → json_loads s = some (.obj fields) →
        lookup fields "error" = some v →
        process_agent_response s = .error v)
    ∧ (∀ s fields, s ≠ "" → json_loads s = some (.obj fields) →
        lookup fields "error" = none →
        process_agent_response s = .structured (.obj fields))
    ∧ (∀ s elems, s ≠ "" → json_loads s = some (.arr elems) →
        process_agent_response s = .structured (.arr elems))
    ∧ (∀ s t, s ≠ "" → json_loads s = some (.str t) →
        process_agent_response s = .text t) := by
  refine ⟨rfl, ?_, ?_, ?_, ?_⟩
  · intro s fields v hs hj he
    simp [process_agent_response, hs, hj, classifyWhole, he]
  · intro s fields hs hj he
    simp [process_agent_response, hs, hj, classifyWhole, he]
  · intro s elems hs hj
    simp [process_agent_response, hs, hj, classifyWhole]
  · intro s t hs hj
    simp [process_agent_response, hs, hj, classifyWhole]

/-- Witness for C9 at concrete inputs exercising every branch. -/
theorem process_agent_response_single_document_spec_witness :
    process_agent_response "\x7b\"error\": \"boom\"\x7d" = .error (.str "boom")
    ∧ process_agent_response "\x7b\"a\": 1\x7d" = .structured (.obj [("a", .num 1)])
    ∧ process_agent_response "[1, 2]" = .structured (.arr [.num 1, .num 2])
    ∧ process_agent_response "\"hello\"" = .text "hello"
    ∧ process_agent_response "" = .empty "レスポンスが空でした" :=
  ⟨process_agent_response_single_document_spec.2.1 _ [("error", .str "boom")] _
      (by decide) rfl rfl,
   process_agent_response_single_document_spec.2.2.1 _ [("a", .num 1)]
      (by decide) rfl rfl,
   process_agent_response_single_document_spec.2.2.2.1 _ [.num 1, .num 2]
      (by decide) rfl,
   process_agent_response_single_document_spec.2.2.2.2 _ "hello"
      (by decide) rfl,
   process_agent_response_single_document_spec.1⟩

/-- C2 counterexample: on the input `"x\n[1]"`, which does not parse as a
single JSON document, the first line that parses as JSON is `"[1]"` (an
array), so the claimed behaviour (classify the first successfully parsed
line with the step-2 rules, array → structured, and stop there) yields a
structured result — but the code passes over lines parsing to arrays and
falls back to a text result carrying the whole raw input. -/
theorem process_agent_response_stream_claim_refuted :
    json_loads "x\n[1]" = none
    ∧ process_claim_stream "x\n[1]" = .structured (.arr [.num 1])
    ∧ process_agent_response "x\n[1]" = .text "x\n[1]"
    ∧ DecodedResult.text "x\n[1]" ≠ DecodedResult.structured (.arr [.num 1]) :=
  ⟨rfl, rfl, rfl, fun h => DecodedResult.noConfusion h⟩

/-- C2 amended: for every non-empty input that does not parse as a single
JSON document, the decoder splits the input on newlines, strips an optional
`"data: "` prefix from each non-blank (stripped) line, parses each line as
JSON independently, and returns the classification of the first line that
parses as an object with an `error` key (error), an object with an `agents`
key (structured), or a bare string (text); lines parsing to any other JSON
value are passed over like unparseable lines; if no line yields a
classification the result is a text result carrying the entire raw input. -/
theorem process_agent_response_stream_amended (s : String) (hs : s ≠ "")
    (hj : json_loads s = none) :
    process_agent_response s =
      (match (pySplitLines s).findSome? lineClassify with
       | some r => r
       | none => .text s) := by
  simp [process_agent_response, hs, hj, decodeStreamLines_eq_findSome]

/-- Witness for the amended C2 at the concrete input `"x\n[1]"`. -/
theorem process_agent_response_stream_amended_witness :
    process_agent_response "x\n[1]" =
      (match (pySplitLines "x\n[1]").findSome? lineClassify with
       | some r => r
       | none => .text "x\n[1]") :=
  process_agent_response_stream_amended "x\n[1]" (by decide) rfl

/-- C8 counterexample: for the payload `\x7b"input": 5, "prompt": "hi"\x7d`
the claim resolves the prompt to the empty string (`input` is present but
neither an object nor a string, so per the claim the top-level `prompt` key
must not be read), while the code falls through and returns `"hi"`. -/
theorem parse_prompt_claim_refuted :
    parse_prompt_from_payload [("input", .num 5), ("prompt", .str "hi")] = .str "hi"
    ∧ parse_prompt_claim [("input", .num 5), ("prompt", .str "hi")] = .str ""
    ∧ Json.str "hi" ≠ Json.str "" :=
  ⟨rfl, rfl, by simp⟩

/-- C8 amended: the resolved prompt follows the order: an `input` object's
`prompt` field; a string `input` JSON-decoded with its `prompt` field read
(the whole string when decoding fails or yields a non-object); when `input`
is present with any other type, or absent, the top-level `prompt` key is
read (stringified, defaulting to empty). -/
theorem parse_prompt_from_payload_amended_eq (payload : List (String × Json)) :
    parse_prompt_from_payload payload = parse_prompt_amended payload := by
  match payload with
  | [] => rfl
  | hd :: tl =>
    simp only [parse_prompt_from_payload, parse_prompt_amended,
      List.isEmpty_cons, if_false, Bool.false_eq_true]
    cases lookup (hd :: tl) "input" with
    | none => rfl
    | some v => cases v <;> rfl

theorem allStrings_map_str (l : List String) :
    allStrings (l.map Json.str) = Except.ok l := by
  induction l with
  | nil => rfl
  | cons s l ih => simp [allStrings, ih, Except.map]

theorem stepInner_zero (fields : List (String × Json)) :
    stepInner (fun _ => ([], [])) fields = ([], []) := by
  unfold stepInner
  split
  · split <;> rfl
  · rfl

theorem collectInner_wf (inners : List Json) (h : inners.all goodInner = true) :
    collectInner inners =
      ((claimFlatten 0 inners).1.map Json.str, (claimFlatten 0 inners).2) := by
  induction inners with
  | nil => rfl
  | cons b bs ih =>
    simp only [List.all_cons, Bool.and_eq_true] at h
    obtain ⟨hb, hbs⟩ := h
    have ih2 := ih hbs
    cases b with
    | obj fields =>
      simp only [collectInner, claimFlatten, claimFlattenStep, stepInner_zero, ih2]
      simp only [goodInner] at hb
      cases ht : lookup fields "text" with
      | none =>
        cases hj : lookup fields "json" <;>
          simp [ht, hj, claimFlatten, List.map_append]
      | some v =>
        rw [ht] at hb
        cases v with
        | str s =>
          cases hj : lookup fields "json" <;>
            simp [ht, hj, claimFlatten, List.map_append]
        | null => exact absurd hb (by simp)
        | bool b2 => exact absurd hb (by simp)
        | num n => exact absurd hb (by simp)
        | arr l => exact absurd hb (by simp)
        | obj f2 => exact absurd hb (by simp)
    | null => simpa [collectInner, claimFlatten, claimFlattenStep] using ih2
    | bool b2 => simpa [collectInner, claimFlatten, claimFlattenStep] using ih2
    | num n => simpa [collectInner, claimFlatten, claimFlattenStep] using ih2
    | str s => simpa [collectInner, claimFlatten, claimFlattenStep] using ih2
    | arr l => simpa [collectInner, claimFlatten, claimFlattenStep] using ih2

theorem innerToolResult_wf (fields : List (String × Json))
    (h : (match lookup fields "toolResult" with
          | none => true
          | some (.obj trFields) =>
            (match lookup trFields "content" with
             | none => true
             | some (.arr inners) => inners.all goodInner
             | some _ => false)
          | some _ => false) = true) :
    innerToolResult fields =
      Except.ok ((stepInner (claimFlatten 0) fields).1.map Json.str,
                 (stepInner (claimFlatten 0) fields).2) := by
  cases htr : lookup fields "toolResult" with
  | none => simp [innerToolResult, stepInner, htr, pure, Except.pure]
  | some v =>
    rw [htr] at h
    cases v with
    | obj trFields =>
      have h2 : (match lookup trFields "content" with
                 | none => true
                 | some (.arr inners) => inners.all goodInner
                 | some _ => false) = true := by simpa using h
      cases hc : lookup trFields "content" with
      | none =>
        simp [innerToolResult, stepInner, htr, hc, pyIter, collectInner,
          pure, Except.pure]
      | some w =>
        rw [hc] at h2
        cases w with
        | arr inners =>
          simp [innerToolResult, stepInner, htr, hc, pyIter,
            collectInner_wf inners (by simpa using h2), pure, Except.pure]
        | null => simp at h2
        | bool b => simp at h2
        | num n => simp at h2
        | str s => simp at h2
        | obj f2 => simp at h2
    | null => simp at h
    | bool b => simp at h
    | num n => simp at h
    | str s => simp at h
    | arr l => simp at h

theorem processBlocks_wf (blocks : List Json) (h : wellFormedBlocks blocks = true) :
    processBlocks blocks =
      Except.ok ((claimFlatten 1 blocks).1.map Json.str,
                 (claimFlatten 1 blocks).2) := by
  induction blocks with
  | nil => rfl
  | cons b bs ih =>
    simp only [wellFormedBlocks, List.all_cons, Bool.and_eq_true] at h
    obtain ⟨hb, hbs⟩ := h
    have ih2 := ih hbs
    cases b with
    | obj fields =>
      simp only [goodBlock, Bool.and_eq_true] at hb
      obtain ⟨hbt, hbtr⟩ := hb
      simp only [processBlocks, innerToolResult_wf fields hbtr, ih2,
        claimFlatten, claimFlattenStep, Bind.bind, Except.bind]
      cases ht : lookup fields "text" with
      | none =>
        cases hj : lookup fields "json" <;>
          simp [ht, hj, List.map_append, pure, Except.pure, claimFlatten]
      | some v =>
        rw [ht] at hbt
        cases v with
        | str s =>
          cases hj : lookup fields "json" <;>
            simp [ht, hj, List.map_append, pure, Except.pure, claimFlatten]
        | null => simp at hbt
        | bool b2 => simp at hbt
        | num n => simp at hbt
        | arr l => simp at hbt
        | obj f2 => simp at hbt
    | null => simpa [processBlocks, claimFlatten, claimFlattenStep] using ih2
    | bool b2 => simpa [processBlocks, claimFlatten, claimFlattenStep] using ih2
    | num n => simpa [processBlocks, claimFlatten, claimFlattenStep] using ih2
    | str s => simpa [processBlocks, claimFlatten, claimFlattenStep] using ih2
    | arr l => simpa [processBlocks, claimFlatten, claimFlattenStep] using ih2

/-- C6 counterexample: a message whose content nests a tool-result inside a
tool-result, with a text block at depth 3. The code flattens tool-results
only one level deep and returns `("", [])`, while the claimed recursive
flattening collects the text `"deep"`. -/
theorem extract_message_content_claim_refuted :
    extract_message_content (some nestedToolResultMsg) = ("", [])
    ∧ claimExtract nestedToolResultMsg = ("deep", [])
    ∧ ("" : String) ≠ "deep" :=
  ⟨rfl, rfl, by decide⟩

/-- C6 amended: for every content whose blocks are well formed (text values
are strings; a tool-result, when present, is an object whose content is a
list of sub-blocks with string text values), message extraction returns the
newline-joined, whitespace-trimmed concatenation of the text blocks and the
verbatim list of structured blocks in arrival order, with the direct
sub-blocks of each block's tool-result flattened into those same two
buckets; tool-result blocks nested inside them (depth 3) are ignored. -/
theorem extract_message_content_amended (blocks : List Json)
    (h : wellFormedBlocks blocks = true) :
    extract_message_content (some (.obj [("content", .arr blocks)])) =
      (pyStrip (String.intercalate "\n" (claimFlatten 1 blocks).1),
       (claimFlatten 1 blocks).2) := by
  simp [extract_message_content, extractBody, pyFalsy, lookup, pyIter,
    processBlocks_wf blocks h, allStrings_map_str, Bind.bind, Except.bind,
    Functor.map, Except.map, pure, Except.pure]

/-- Witness for the amended C6 on a concrete two-bucket message with one
nested tool-result. -/
theorem extract_message_content_amended_witness :
    extract_message_content (some (.obj [("content", .arr
      [.obj [("text", .str "a"), ("json", .num 1),
             ("toolResult", .obj [("content", .arr
               [.obj [("text", .str "b"), ("json", .num 2)]])])]])])) =
      (pyStrip (String.intercalate "\n" (claimFlatten 1
        [.obj [("text", .str "a"), ("json", .num 1),
               ("toolResult", .obj [("content", .arr
                 [.obj [("text", .str "b"), ("json", .num 2)]])])]]).1),
       (claimFlatten 1
        [.obj [("text", .str "a"), ("json", .num 1),
               ("toolResult", .obj [("content", .arr
                 [.obj [("text", .str "b"), ("json", .num 2)]])])]]).2) :=
  extract_message_content_amended _ rfl

theorem processBlocks_filter_isDict (blocks : List Json) :
    processBlocks blocks = processBlocks (blocks.filter isDict) := by
  induction blocks with
  | nil => rfl
  | cons b bs ih =>
    cases b with
    | obj fields => simp [processBlocks, List.filter, isDict, ih]
    | null => simpa [processBlocks, List.filter, isDict] using ih
    | bool b2 => simpa [processBlocks, List.filter, isDict] using ih
    | num n => simpa [processBlocks, List.filter, isDict] using ih
    | str s => simpa [processBlocks, List.filter, isDict] using ih
    | arr l => simpa [processBlocks, List.filter, isDict] using ih

/-- C10: message extraction is total and exception-safe: the `except`
handler maps every internal raise to `("", [])`; a missing `message`
attribute yields `("", [])`; a non-dict message yields `("", [])`; and
non-dict content blocks are ignored (filtering them away does not change
the result). -/
theorem extract_message_content_safe :
    (∀ r, extractBody r = Except.error () → extract_message_content r = ("", []))
    ∧ extract_message_content none = ("", [])
    ∧ (∀ m, isDict m = false → extract_message_content (some m) = ("", []))
    ∧ (∀ blocks, extract_message_content (some (.obj [("content", .arr blocks)])) =
        extract_message_content (some (.obj [("content",
          .arr (blocks.filter isDict))]))) := by
  refine ⟨?_, rfl, ?_, ?_⟩
  · intro r hr
    simp [extract_message_content, hr]
  · intro m hm
    cases m with
    | obj fields => simp [isDict] at hm
    | null => rfl
    | bool b => cases b <;> rfl
    | num n =>
      by_cases hz : n = 0
      · subst hz; rfl
      · simp [extract_message_content, extractBody, pyFalsy, hz,
          Bind.bind, Except.bind]
    | str s =>
      by_cases hz : s = ""
      · subst hz; rfl
      · simp [extract_message_content, extractBody, pyFalsy, hz,
          Bind.bind, Except.bind]
    | arr l =>
      cases l with
      | nil => rfl
      | cons x xs => rfl
  · intro blocks
    simp [extract_message_content, extractBody, pyFalsy, lookup, pyIter,
      processBlocks_filter_isDict blocks, Bind.bind, Except.bind,
      pure, Except.pure]

/-- Witness for C10: the safety clauses at concrete malformed inputs. -/
theorem extract_message_content_safe_witness :
    extract_message_content (some (.num 1)) = ("", [])
    ∧ extract_message_content (some (.str "oops")) = ("", []) :=
  ⟨extract_message_content_safe.2.2.1 (.num 1) rfl,
   extract_message_content_safe.2.2.1 (.str "oops") rfl⟩

theorem intercalate_go_length (as : List String) (acc s : String) :
    acc.length ≤ (String.intercalate.go acc s as).length := by
  induction as generalizing acc with
  | nil => simp [String.intercalate.go]
  | cons a as ih =>
    calc acc.length ≤ (acc ++ s ++ a).length := by
          simp [String.length_append]
          omega
      _ ≤ (String.intercalate.go (acc ++ s ++ a) s as).length := ih _
      _ = (String.intercalate.go acc s (a :: as)).length := rfl

theorem node_texts_eq (name : String) (ars : List (Option Json)) :
    node_texts name ars =
      ((ars.map (fun ar => (extract_message_content ar).1)).filter
          (fun t => t ≠ "")).map
        (fun t => "[" ++ name ++ "] " ++ t) := by
  induction ars with
  | nil => rfl
  | cons ar ars ih =>
    simp only [node_texts, List.map_cons, List.filter_cons]
    by_cases h : (extract_message_content ar).1 = "" <;> simp [h, ih]

theorem all_texts_loop_eq_labeledTexts
    (results : List (String × List (Option Json))) :
    all_texts_loop results = labeledTexts results := by
  induction results with
  | nil => rfl
  | cons nr rest ih =>
    obtain ⟨name, ars⟩ := nr
    simp [all_texts_loop, labeledTexts, node_texts_eq, ih]

theorem labeledTexts_mem (results : List (String × List (Option Json)))
    (x : String) (hx : x ∈ labeledTexts results) :
    ∃ n t, x = "[" ++ n ++ "] " ++ t := by
  simp only [labeledTexts, List.mem_bind, List.mem_map] at hx
  obtain ⟨nr, _, t, _, rfl⟩ := hx
  exact ⟨nr.1, t, rfl⟩

/-- C7: the full-text field is `"\n\n".join` of the `"[node_name] text"`
labelled texts in node-completion order; when no node produced any text it
is the fixed non-empty sentinel; and it is never the empty string. -/
theorem build_full_text_spec :
    (∀ results, build_full_text results =
        (if labeledTexts results = [] then "レスポンスが空でした"
         else String.intercalate "\n\n" (labeledTexts results)))
    ∧ (∀ results : List (String × List (Option Json)),
        (∀ nr ∈ results, ∀ ar ∈ nr.2, (extract_message_content ar).1 = "") →
        build_full_text results = "レスポンスが空でした")
    ∧ ("レスポンスが空でした" : String) ≠ ""
    ∧ (∀ results, build_full_text results ≠ "") := by
  have hspec : ∀ results, build_full_text results =
      (if labeledTexts results = [] then "レスポンスが空でした"
       else String.intercalate "\n\n" (labeledTexts results)) := by
    intro results
    simp only [build_full_text, all_texts_loop_eq_labeledTexts]
    by_cases h : labeledTexts results = [] <;> simp [h]
  refine ⟨hspec, ?_, by decide, ?_⟩
  · intro results h
    rw [hspec results]
    have hempty : labeledTexts results = [] := by
      simp only [labeledTexts, List.bind_eq_nil]
      intro nr hnr
      simp only [List.map_eq_nil, List.filter_eq_nil]
      intro t ht
      obtain ⟨ar, har, rfl⟩ := List.mem_map.mp ht
      simpa using h nr hnr ar har
    simp [hempty]
  · intro results
    rw [hspec results]
    by_cases h : labeledTexts results = []
    · simp [h]
    · simp only [h, if_false]
      obtain ⟨a, as, ha⟩ := List.exists_cons_of_ne_nil h
      have hx : a ∈ labeledTexts results := by
        rw [ha]; exact List.mem_cons_self a as
      obtain ⟨n, t, rfl⟩ := labeledTexts_mem results a hx
      have hlen : 1 ≤ (String.intercalate "\n\n"
          (("[" ++ n ++ "] " ++ t) :: as)).length := by
        have h1 : 1 ≤ ("[" ++ n ++ "] " ++ t).length := by
          have hb : "[".length = 1 := rfl
          simp [String.length_append, hb]
          omega
        calc 1 ≤ ("[" ++ n ++ "] " ++ t).length := h1
          _ ≤ (String.intercalate.go ("[" ++ n ++ "] " ++ t) "\n\n" as).length :=
            intercalate_go_length as _ _
          _ = (String.intercalate "\n\n" (("[" ++ n ++ "] " ++ t) :: as)).length :=
            rfl
      rw [ha]
      intro hEq
      rw [hEq] at hlen
      simp at hlen

/-- C3: routing by a keyword that matches no tool falls back to the entire
catalog in both agent factories, and for a non-empty catalog the selected
tool list is never empty. -/
theorem route_fallback_full_catalog :
    (∀ tools, _filter_tools_by_keyword tools "slack" = [] →
      slack_select_tools tools = tools)
    ∧ (∀ tools, _filter_tools_by_keyword tools "tavily" = [] →
        _filter_tools_by_keyword tools "extract" = [] →
        tavily_select_tools tools = tools)
    ∧ (∀ tools, tools ≠ [] →
        slack_select_tools tools ≠ [] ∧ tavily_select_tools tools ≠ []) := by
  refine ⟨?_, ?_, ?_⟩
  · intro tools h
    simp [slack_select_tools, h]
  · intro tools h1 h2
    simp [tavily_select_tools, h1, h2]
  · intro tools h
    constructor
    · unfold slack_select_tools
      by_cases hf : (_filter_tools_by_keyword tools "slack").isEmpty
      · simpa [hf] using h
      · simp only [hf, Bool.false_eq_true, if_false]
        intro hc
        exact hf (by simp [hc])
    · unfold tavily_select_tools
      by_cases h1 : (_filter_tools_by_keyword tools "tavily").isEmpty
      · by_cases h2 : (_filter_tools_by_keyword tools "extract").isEmpty
        · simpa [h1, h2] using h
        · simp only [h1, h2, if_true, Bool.false_eq_true, if_false]
          intro hc
          exact h2 (by simp [hc])
      · simp only [h1, Bool.false_eq_true, if_false]
        intro hc
        exact h1 (by simp [hc])

/-- Witness for C3 on a one-tool catalog matching neither keyword. -/
theorem route_fallback_full_catalog_witness :
    slack_select_tools [⟨"random_tool"⟩] = [⟨"random_tool"⟩]
    ∧ tavily_select_tools [⟨"random_tool"⟩] = [⟨"random_tool"⟩]
    ∧ slack_select_tools [⟨"random_tool"⟩] ≠ [] :=
  ⟨route_fallback_full_catalog.1 _ rfl,
   route_fallback_full_catalog.2.1 _ rfl rfl,
   (route_fallback_full_catalog.2.2 _ (by simp)).1⟩

/-- Witness for C7 on a run where no node produced text and on the empty
run. -/
theorem build_full_text_spec_witness :
    build_full_text [("slack_agent", [none])] = "レスポンスが空でした"
    ∧ build_full_text [] ≠ "" :=
  ⟨build_full_text_spec.2.1 [("slack_agent", [none])]
      (by
        intro nr hnr ar har
        rw [List.mem_singleton] at hnr
        subst hnr
        rw [List.mem_singleton] at har
        subst har
        rfl),
   build_full_text_spec.2.2.2 []⟩

theorem pages_loop_eq (pages : List (List Tool)) :
    ∀ (fuel i calls : Nat) (tok : Option Nat) (acc : List Tool),
      tok.getD 0 = i → i < pages.length → pages.length - i ≤ fuel →
      get_full_tools_list_loop (pagesClient pages) fuel tok acc calls =
        some (acc ++ (pages.drop i).flatten, calls + (pages.length - i)) := by
  intro fuel
  induction fuel with
  | zero =>
    intro i calls tok acc hti hi hf
    omega
  | succ fuel ih =>
    intro i calls tok acc hti hi hf
    have hdrop : pages.drop i = pages[i] :: pages.drop (i + 1) :=
      List.drop_eq_getElem_cons hi
    have hgetD : pages.getD i [] = pages[i] := by
      simp [List.getD_eq_getElem?_getD, List.getElem?_eq_getElem hi]
    by_cases hlast : i + 1 < pages.length
    · have hrec := ih (i + 1) (calls + 1) (some (i + 1)) (acc ++ pages[i])
        rfl hlast (by omega)
      simp only [get_full_tools_list_loop, pagesClient, hti, hgetD,
        if_pos hlast]
      rw [hrec]
      simp only [Option.some.injEq, Prod.mk.injEq]
      constructor
      · rw [hdrop, List.flatten_cons, List.append_assoc]
      · omega
    · have hdropNil : pages.drop (i + 1) = [] :=
        List.drop_eq_nil_of_le (by omega)
      simp only [get_full_tools_list_loop, pagesClient, hti, hgetD,
        if_neg hlast]
      simp only [Option.some.injEq, Prod.mk.injEq]
      constructor
      · rw [hdrop, hdropNil]
        simp
      · omega

/-- C4: for a listing that returns N pages before an absent cursor, the
catalog fetch makes exactly N listing calls and the accumulated catalog is
the concatenation of all pages in page order, whose length is the sum of
the page sizes. -/
theorem get_full_tools_list_pagination (pages : List (List Tool)) (fuel : Nat)
    (h1 : pages ≠ []) (h2 : pages.length ≤ fuel) :
    get_full_tools_list (pagesClient pages) fuel =
      some (pages.flatten, pages.length)
    ∧ pages.flatten.length = (pages.map List.length).sum := by
  have h0 : 0 < pages.length := List.length_pos.mpr h1
  have hmain := pages_loop_eq pages fuel 0 0 none [] rfl h0 (by omega)
  constructor
  · simpa [get_full_tools_list] using hmain
  · simp [List.length_flatten]

/-- Witness for C4 on a concrete two-page catalog. -/
theorem get_full_tools_list_pagination_witness :
    get_full_tools_list (pagesClient [[⟨"a"⟩], [⟨"b"⟩, ⟨"c"⟩]]) 5 =
      some ([⟨"a"⟩, ⟨"b"⟩, ⟨"c"⟩], 2) := by
  have := (get_full_tools_list_pagination [[⟨"a"⟩], [⟨"b"⟩, ⟨"c"⟩]] 5
    (by simp) (by simp)).1
  simpa using this

/-- C5 counterexample: when the first listing call returns zero tools and
no cursor, the fetch terminates after exactly one call and hands the empty
catalog back to its caller as an ordinary return value. No
`EmptyCatalogError` (or any other error signal) exists in the code: the
function's only outcome on this input is the silent empty list that the
claim says must not be returned. -/
theorem get_full_tools_list_empty_catalog_refuted :
    get_full_tools_list (pagesClient [[]]) 1 = some ([], 1) := rfl

/-- C5 amended: when the first listing call returns zero capabilities and
no cursor, the catalog fetch terminates after exactly one listing call and
returns the empty catalog to the caller; no error is signalled. -/
theorem get_full_tools_list_empty_catalog_amended
    (client : Option Nat → ToolPage) (h1 : (client none).items = [])
    (h2 : (client none).pagination_token = none) (fuel : Nat) (hf : 1 ≤ fuel) :
    get_full_tools_list client fuel = some ([], 1) := by
  cases fuel with
  | zero => omega
  | succ f => simp [get_full_tools_list, get_full_tools_list_loop, h1, h2]

/-- Witness for the amended C5 on a constant empty listing backend. -/
theorem get_full_tools_list_empty_catalog_amended_witness :
    get_full_tools_list (fun _ => ⟨[], none⟩) 5 = some ([], 1) :=
  get_full_tools_list_empty_catalog_amended (fun _ => ⟨[], none⟩) rfl rfl 5
    (by decide)

/-- C1: on the two-node linear graph with the always-false conditional
edge, when both `slack_agent` and `tavily_agent` succeed the run records
exactly those two node results (in completion order) with overall status
`completed`; the conditional edge never fires, so `block_agent` is never
executed and appears in no result. -/
theorem agent_graph_conditional_termination (execNode : String → Bool)
    (hs : execNode "slack_agent" = true) (ht : execNode "tavily_agent" = true)
    (fuel : Nat) (hf : 3 ≤ fuel) :
    runGraph agentGraph execNode fuel =
      some (⟨[("slack_agent", NodeStatus.completed),
              ("tavily_agent", NodeStatus.completed)]⟩, RunStatus.completed)
    ∧ [("slack_agent", NodeStatus.completed),
       ("tavily_agent", NodeStatus.completed)].length = 2
    ∧ "block_agent" ∉ ([("slack_agent", NodeStatus.completed),
       ("tavily_agent", NodeStatus.completed)].map Prod.fst) := by
  obtain ⟨k, rfl⟩ : ∃ k, fuel = Nat.succ (Nat.succ (Nat.succ k)) :=
    ⟨fuel - 3, by omega⟩
  refine ⟨?_, rfl, by decide⟩
  simp [runGraph, runLoop, agentGraph, edgeFires, always_false_condition,
    hs, ht, List.filter]

/-- Witness for C1 with a node executor that always succeeds. -/
theorem agent_graph_conditional_termination_witness :
    runGraph agentGraph (fun _ => true) 3 =
      some (⟨[("slack_agent", NodeStatus.completed),
              ("tavily_agent", NodeStatus.completed)]⟩, RunStatus.completed) :=
  (agent_graph_conditional_termination (fun _ => true) rfl rfl 3 (by decide)).1

end StrandsGraph
